import Mathlib

/-!
Verification of the training/evaluation/checkpoint loop of
`src/soongyu/Deep_Learning_study/xbd+randargument_editing.py`.

The script's two functions, `run_epoch` and `train_and_eval`, are embedded
shallowly below.  External library calls (the model forward pass, the loss
function, the accuracy computation, the actual optimizer/scheduler objects,
tensor device movement, logging) are abstracted: a batch is represented by
its size together with the scalar loss/top1/top5 values the external calls
would produce for it, and the optimizer / scheduler / checkpoint-file
interactions are recorded as traces.  Numeric values are rationals.
-/

/-- Modelled from the spec: the class `Accumulator` is imported from
`RandAugment.metrics`, whose source is not in the repository snapshot.
Spec section 4.1 (MetricsAccumulator): `add` adds each value to the running
total, creating the key at zero if unseen (insertion order kept);
`scale(divisor)` returns a new mapping with every entry divided by the
divisor and fails with a domain error if the divisor is zero; `items()`
produces entries in insertion order.  The mapping is an ordered
association list from metric name to running total. -/
structure Accumulator where
  metrics : List (String × ℚ)
deriving DecidableEq, Repr

/-- The empty accumulator (no keys yet). -/
def Accumulator.empty : Accumulator := ⟨[]⟩

/-- Modelled from the spec: add a single value to the running total of one
key, creating the key at zero (hence appending it with the given value)
when unseen. -/
def Accumulator.addOne (a : Accumulator) (key : String) (value : ℚ) : Accumulator :=
  if (a.metrics.map Prod.fst).contains key then
    ⟨a.metrics.map (fun kv => if kv.1 = key then (kv.1, kv.2 + value) else kv)⟩
  else
    ⟨a.metrics ++ [(key, value)]⟩

/-- Modelled from the spec: `add_dict` adds every entry of the given
mapping (`metrics.add_dict({...})` in the script). -/
def Accumulator.add_dict (a : Accumulator) (d : List (String × ℚ)) : Accumulator :=
  d.foldl (fun acc kv => acc.addOne kv.1 kv.2) a

/-- Value stored under a key (the accumulator is backed by a defaultdict
starting at zero, so a missing key reads as 0). -/
def Accumulator.get (a : Accumulator) (key : String) : ℚ :=
  (a.metrics.lookup key).getD 0

/-- Modelled from the spec: scalar division `metrics / cnt` returns a new
accumulator with every entry divided; it fails with a domain error when
the divisor is zero, which we render as `none`. -/
def Accumulator.div (a : Accumulator) (d : ℚ) : Option Accumulator :=
  if d = 0 then none
  else some ⟨a.metrics.map (fun kv => (kv.1, kv.2 / d))⟩

/-- Assignment `metrics.metrics[key] = value` (line 80 of the script):
overwrite the key when present, append it otherwise. -/
def Accumulator.set (a : Accumulator) (key : String) (value : ℚ) : Accumulator :=
  if (a.metrics.map Prod.fst).contains key then
    ⟨a.metrics.map (fun kv => if kv.1 = key then (kv.1, value) else kv)⟩
  else
    ⟨a.metrics ++ [(key, value)]⟩

/-- One batch yielded by the data loader, abstracted to its size
(`len(data)`) and the scalar values the external model/loss/accuracy
calls produce for it: `loss.item()`, `top1.item()`, `top5.item()`. -/
structure Batch where
  size : ℕ
  lossVal : ℚ
  top1Val : ℚ
  top5Val : ℚ
deriving DecidableEq, Repr

/-- The gradient-clip threshold `C.get()['optimizer'].get('clip', 5)`
(line 50): the configured value when the `clip` key is present, else the
default 5. -/
def clipValue (clip : Option ℚ) : ℚ := clip.getD 5

/-- State threaded through `run_epoch`'s batch loop: the metric
accumulator, the cumulative sample count `cnt`, the batch counter
`steps`, and the recorded interactions with the scheduler
(arguments of `scheduler.step(...)`, line 68) and with gradient clipping
(number of `clip_grad_norm_` calls, line 51). -/
structure EpochState where
  metrics : Accumulator
  cnt : ℕ
  steps : ℕ
  schedArgs : List ℚ
  clipCalls : ℕ
deriving DecidableEq, Repr

/-- The accumulation a single batch performs (lines 55-59): each metric
value is added multiplied by the batch size. -/
def Accumulator.addBatch (m : Accumulator) (b : Batch) : Accumulator :=
  m.add_dict
    [ ("loss", b.lossVal * (b.size : ℚ))
    , ("top1", b.top1Val * (b.size : ℚ))
    , ("top5", b.top5Val * (b.size : ℚ)) ]

/-- Body of `run_epoch`'s `for data, label in loader` loop (lines 38-70):
increment `steps`; in training mode (optimizer present) clip the gradient
norm iff the clip threshold is positive; accumulate size-weighted metrics;
add the batch size to `cnt`; if a scheduler was given, step it with
`epoch - 1 + steps / total_steps`. -/
def batchStep (hasOptimizer : Bool) (clip : Option ℚ) (hasScheduler : Bool)
    (epoch : ℤ) (total_steps : ℕ) (st : EpochState) (b : Batch) : EpochState :=
  let steps1 := st.steps + 1
  let clipCalls1 :=
    if hasOptimizer && decide (0 < clipValue clip) then st.clipCalls + 1 else st.clipCalls
  let metrics1 := st.metrics.addBatch b
  let cnt1 := st.cnt + b.size
  let schedArgs1 :=
    if hasScheduler then
      st.schedArgs ++ [(epoch : ℚ) - 1 + (steps1 : ℚ) / (total_steps : ℚ)]
    else st.schedArgs
  ⟨metrics1, cnt1, steps1, schedArgs1, clipCalls1⟩

/-- Result of one `run_epoch` call: the returned averaged metrics
(`none` when the end-of-epoch division failed), the final sample count,
and the recorded scheduler/clip interactions. -/
structure EpochRun where
  result : Option Accumulator
  cnt : ℕ
  schedArgs : List ℚ
  clipCalls : ℕ
deriving DecidableEq, Repr

/-- Shallow embedding of `run_epoch` (lines 28-84).  `total_steps` is the
loader length computed up front (line 36); the loop threads `EpochState`;
at the end the accumulated metrics are divided by `cnt` (line 78) and, in
training mode, the current learning rate is stored under the extra key
`lr` (line 80). -/
def run_epoch (hasOptimizer : Bool) (clip : Option ℚ) (lr : ℚ) (hasScheduler : Bool)
    (epoch : ℤ) (bs : List Batch) : EpochRun :=
  let total_steps := bs.length
  let fin := bs.foldl (batchStep hasOptimizer clip hasScheduler epoch total_steps)
    ⟨Accumulator.empty, 0, 0, [], 0⟩
  let res := (fin.metrics.div (fin.cnt : ℚ)).map
    (fun m => if hasOptimizer then m.set "lr" lr else m)
  ⟨res, fin.cnt, fin.schedArgs, fin.clipCalls⟩

/-- Averaged value the caller reads from the returned metrics, when the
epoch produced a result at all. -/
def EpochRun.avg (r : EpochRun) (key : String) : Option ℚ :=
  r.result.map (fun m => m.get key)

/-- Sum of the batch sizes of a stream: the final value of `cnt`. -/
def sampleCount (bs : List Batch) : ℕ := (bs.map Batch.size).sum

/-- Size-weighted total of a per-batch metric over a stream. -/
def weightedTotal (f : Batch → ℚ) (bs : List Batch) : ℚ :=
  (bs.map (fun b => f b * (b.size : ℚ))).sum

/-- The Python substring test `'module.' in k` (line 148/152): true when
the string `module.` occurs anywhere in the key. -/
def containsModuleStr (k : String) : Bool := (k.splitOn "module.").length != 1

/-- Key normalization of the state-dict comprehension
`k if 'module.' in k else 'module.'+k` (lines 148 and 152). -/
def normalizeKey (k : String) : String :=
  if containsModuleStr k then k else "module." ++ k

/-- The dict comprehension applied to a whole state dict before
`model.load_state_dict`. -/
def normalizeStateDict (sd : List (String × ℚ)) : List (String × ℚ) :=
  sd.map (fun kv => (normalizeKey kv.1, kv.2))

/-- The object produced by `torch.load(save_path)` (line 145), abstracted
to the parts `train_and_eval` probes: the values at the keys `model` and
`state_dict` when present, the value at the target-metric key when
present, whether `optimizer` / `scheduler` states are present, the value
at the `epoch` key when present, and the raw items of the dict (used when
it is loaded as a bare model-state mapping).  Parameter tensors are
abstracted to rationals. -/
structure CkptData where
  modelState : Option (List (String × ℚ))
  stateDictState : Option (List (String × ℚ))
  metricValue : Option ℚ
  hasOptimizerState : Bool
  hasSchedulerState : Bool
  epochValue : Option ℕ
  items : List (String × ℚ)
deriving DecidableEq, Repr

/-- Outcome of the checkpoint-restore block (lines 143-158). -/
structure LoadResult where
  loadedModel : List (String × ℚ)
  best0 : Option ℚ
  optimizerLoaded : Bool
  schedulerLoaded : Bool
  epoch_start : ℕ
deriving DecidableEq, Repr

/-- Shallow embedding of the checkpoint-restore block (lines 143-158):
if the dict has a `model` or `state_dict` key, load that entry (keys
normalized) and seed `result['best_valid']` from the metric key when
present; otherwise load the whole dict as a bare state mapping (keys
normalized).  Then restore optimizer/scheduler state when present, and
set `epoch_start` to the stored epoch plus one when an `epoch` entry
exists, else leave it at 1. -/
def loadCheckpoint (d : CkptData) : LoadResult :=
  let wrapped := d.modelState.isSome || d.stateDictState.isSome
  let loadedModel :=
    if wrapped then
      normalizeStateDict (match d.modelState with
        | some s => s
        | none => d.stateDictState.getD [])
    else normalizeStateDict d.items
  { loadedModel := loadedModel
  , best0 := if wrapped then d.metricValue else none
  , optimizerLoaded := d.hasOptimizerState
  , schedulerLoaded := d.hasSchedulerState
  , epoch_start := match d.epochValue with
      | some n => n + 1
      | none => 1 }

/-- The configuration keys `train_and_eval` enumerates over.
`optimizerType` is `C.get()['optimizer']['type']` (`none` models a
missing key, which raises a KeyError); `lrScheduleType` is the `type`
entry of `lr_schedule` read by `.get('type', 'cosine')` (line 118), with
`none` modelling the missing key; `epoch` is `C.get()['epoch']`.  The
remaining keys (dataset, batch, lr, momentum, decay, nesterov, ...) are
consumed opaquely by external constructors and are not modelled. -/
structure Config where
  epoch : ℕ
  optimizerType : Option String
  lrScheduleType : Option String
deriving DecidableEq, Repr

/-- Construction-time failures of `train_and_eval`: the KeyError of a
missing required key, the ValueError of line 111 for an unsupported
optimizer type, and the ValueError of line 124 for an unsupported
lr-schedule type. -/
inductive ConfigError where
  | missingKey (k : String)
  | invalidOptimizerType (t : String)
  | invalidLrScheduleType (t : String)
deriving DecidableEq, Repr

/-- Optimizer construction (lines 102-111): only the type `sgd` is
accepted; any other present type raises, and a missing type key raises a
KeyError. -/
def buildOptimizer (cfg : Config) : Except ConfigError Unit :=
  match cfg.optimizerType with
  | none => .error (.missingKey "optimizer.type")
  | some t => if t = "sgd" then .ok () else .error (.invalidOptimizerType t)

/-- Scheduler construction (lines 118-124): the type defaults to
`cosine` when the key is absent; `cosine` and `resnet` are accepted and
anything else raises. -/
def buildScheduler (cfg : Config) : Except ConfigError String :=
  let t := cfg.lrScheduleType.getD "cosine"
  if t = "cosine" ∨ t = "resnet" then .ok t else .error (.invalidLrScheduleType t)

/-- Which split a `run_epoch` call processes. -/
inductive RunKind where
  | train
  | valid
  | test
deriving DecidableEq, Repr

/-- One `run_epoch` invocation made by `train_and_eval`: the split, the
presence of an optimizer (training mode), and the epoch argument. -/
structure RunCall where
  kind : RunKind
  hasOptimizer : Bool
  epoch : ℕ
deriving DecidableEq, Repr

/-- One reporter invocation (line 215): the epoch and whether the test
metrics argument was a metric set (`true`) or `None` (`false`). -/
structure EpochReport where
  epoch : ℕ
  testPresent : Bool
deriving DecidableEq, Repr

/-- State threaded through the training loop (lines 179-216): the
tracked `result['best_valid']`, the checkpoint written to `save_path`
by this run (`none` while the file is still untouched), the list of
write events, and the recorded run/report/scheduler interactions. -/
structure LoopState where
  best : Option ℚ
  saved : Option (ℕ × ℚ)
  writes : List (ℕ × ℚ)
  runCalls : List RunCall
  reports : List EpochReport
  schedEpochSteps : List ℕ
deriving DecidableEq, Repr

/-- The best-checkpoint condition of line 195:
`'best_valid' not in result or result['best_valid'] < valid_metrics[metric]`. -/
def improves (best : Option ℚ) (v : ℚ) : Bool :=
  match best with
  | none => true
  | some b => decide (b < v)

/-- The `run_epoch` calls one loop iteration makes: a training pass, a
validation pass, and a test pass exactly when at most 5 epochs remain
(line 207). -/
def epochCalls (maxEpoch : ℕ) (e : ℕ) : List RunCall :=
  [⟨.train, true, e⟩, ⟨.valid, false, e⟩]
    ++ (if (maxEpoch : ℤ) - (e : ℤ) ≤ 5 then [⟨.test, false, e⟩] else [])

/-- Body of the `for epoch in range(epoch_start, max_epoch + 1)` loop
(lines 179-216): run train and valid passes; if the target metric
improves on the tracked best (line 195), write a checkpoint when a save
path was given (lines 197-204) and update the best (line 205); run a
test pass iff at most 5 epochs remain (line 207); report; step the
epoch-level scheduler (line 216).  The per-epoch validation value of
the target metric is abstracted as `vm e`. -/
def loopStep (savePath : Bool) (maxEpoch : ℕ) (vm : ℕ → ℚ)
    (st : LoopState) (e : ℕ) : LoopState :=
  let v := vm e
  let testRun : Bool := decide ((maxEpoch : ℤ) - (e : ℤ) ≤ 5)
  let base : LoopState :=
    if improves st.best v then
      { st with
        best := some v
        saved := if savePath then some (e, v) else st.saved
        writes := if savePath then st.writes ++ [(e, v)] else st.writes }
    else st
  { base with
    runCalls := st.runCalls ++ epochCalls maxEpoch e
    reports := st.reports ++ [⟨e, testRun⟩]
    schedEpochSteps := st.schedEpochSteps ++ [e] }

/-- The epoch list `range(epoch_start, max_epoch + 1)`. -/
def epochRange (epoch_start maxEpoch : ℕ) : List ℕ :=
  List.range' epoch_start (maxEpoch + 1 - epoch_start)

/-- The full training loop as a fold of `loopStep` over the epoch
range. -/
def trainLoop (savePath : Bool) (maxEpoch : ℕ) (vm : ℕ → ℚ)
    (epoch_start : ℕ) (st0 : LoopState) : LoopState :=
  (epochRange epoch_start maxEpoch).foldl (loopStep savePath maxEpoch vm) st0

/-- The value `train_and_eval` produces: an exception from construction,
the validation metrics of the eval-only path (line 175), or the `result`
record of the training path (line 218) with its tracked best value. -/
inductive Returned where
  | config_error (e : ConfigError)
  | evalValid
  | bestRecord (best : Option ℚ)
deriving DecidableEq, Repr

/-- Trace of one `train_and_eval` call. -/
structure TAETrace where
  runCalls : List RunCall
  writes : List (ℕ × ℚ)
  saved : Option (ℕ × ℚ)
  reports : List EpochReport
  schedEpochSteps : List ℕ
  epochsProcessed : List ℕ
  loadedModel : Option (List (String × ℚ))
  returned : Returned
deriving DecidableEq, Repr

/-- The empty trace of a run that failed during construction. -/
def errorTrace (e : ConfigError) : TAETrace :=
  { runCalls := [], writes := [], saved := none, reports := []
  , schedEpochSteps := [], epochsProcessed := [], loadedModel := none
  , returned := .config_error e }

/-- Shallow embedding of `train_and_eval` (lines 87-218).  `savePath`
records whether a save path was supplied, `ckpt` the file found at it
(`none` when absent), and `vm e` abstracts the validation value of the
target metric produced at epoch `e` (the external training process).
Construction (optimizer then scheduler) happens before anything else;
the checkpoint is loaded only when a save path was given and the file
exists (line 143); the eval-only path (lines 161-175) runs one
validation and one test pass and returns; otherwise the training loop
runs from `epoch_start` to `max_epoch`. -/
def trainAndEval (cfg : Config) (savePath : Bool) (ckpt : Option CkptData)
    (onlyEval : Bool) (vm : ℕ → ℚ) : TAETrace :=
  match buildOptimizer cfg with
  | .error e => errorTrace e
  | .ok _ =>
  match buildScheduler cfg with
  | .error e => errorTrace e
  | .ok _ =>
    let load := if savePath then ckpt.map loadCheckpoint else none
    let epoch_start := (load.map LoadResult.epoch_start).getD 1
    let best0 : Option ℚ := (load.map LoadResult.best0).getD none
    if onlyEval then
      { runCalls := [⟨.valid, false, epoch_start⟩, ⟨.test, false, epoch_start⟩]
      , writes := [], saved := none, reports := [], schedEpochSteps := []
      , epochsProcessed := []
      , loadedModel := load.map LoadResult.loadedModel
      , returned := .evalValid }
    else
      let fin := trainLoop savePath cfg.epoch vm epoch_start
        { best := best0, saved := none, writes := [], runCalls := []
        , reports := [], schedEpochSteps := [] }
      { runCalls := fin.runCalls
      , writes := fin.writes
      , saved := fin.saved
      , reports := fin.reports
      , schedEpochSteps := fin.schedEpochSteps
      , epochsProcessed := epochRange epoch_start cfg.epoch
      , loadedModel := load.map LoadResult.loadedModel
      , returned := .bestRecord fin.best }

lemma batchStep_cnt (o : Bool) (c : Option ℚ) (s : Bool) (e : ℤ) (t : ℕ)
    (st : EpochState) (b : Batch) :
    (batchStep o c s e t st b).cnt = st.cnt + b.size := rfl

lemma batchStep_metrics (o : Bool) (c : Option ℚ) (s : Bool) (e : ℤ) (t : ℕ)
    (st : EpochState) (b : Batch) :
    (batchStep o c s e t st b).metrics = st.metrics.addBatch b := rfl

lemma fold_batchStep_cnt (o : Bool) (c : Option ℚ) (s : Bool) (e : ℤ) (t : ℕ)
    (bs : List Batch) (st : EpochState) :
    (bs.foldl (batchStep o c s e t) st).cnt = st.cnt + sampleCount bs := by
  induction bs generalizing st with
  | nil => simp [sampleCount]
  | cons b tl ih =>
      simp only [List.foldl_cons, ih, batchStep_cnt, sampleCount, List.map_cons, List.sum_cons]
      omega

lemma fold_batchStep_metrics (o : Bool) (c : Option ℚ) (s : Bool) (e : ℤ) (t : ℕ)
    (bs : List Batch) (st : EpochState) :
    (bs.foldl (batchStep o c s e t) st).metrics
      = bs.foldl Accumulator.addBatch st.metrics := by
  induction bs generalizing st with
  | nil => rfl
  | cons b tl ih => simp only [List.foldl_cons, ih, batchStep_metrics]

lemma addBatch_shape (a b c : ℚ) (bt : Batch) :
    (Accumulator.mk [("loss", a), ("top1", b), ("top5", c)]).addBatch bt
      = Accumulator.mk
          [ ("loss", a + bt.lossVal * (bt.size : ℚ))
          , ("top1", b + bt.top1Val * (bt.size : ℚ))
          , ("top5", c + bt.top5Val * (bt.size : ℚ)) ] := by
  simp [Accumulator.addBatch, Accumulator.add_dict, Accumulator.addOne]

lemma addBatch_empty (bt : Batch) :
    Accumulator.empty.addBatch bt
      = Accumulator.mk
          [ ("loss", bt.lossVal * (bt.size : ℚ))
          , ("top1", bt.top1Val * (bt.size : ℚ))
          , ("top5", bt.top5Val * (bt.size : ℚ)) ] := by
  simp [Accumulator.addBatch, Accumulator.add_dict, Accumulator.addOne, Accumulator.empty]

lemma weightedTotal_cons (f : Batch → ℚ) (b : Batch) (bs : List Batch) :
    weightedTotal f (b :: bs) = f b * (b.size : ℚ) + weightedTotal f bs := by
  simp [weightedTotal]

lemma fold_addBatch_shape (bs : List Batch) :
    ∀ a b c : ℚ,
      bs.foldl Accumulator.addBatch (Accumulator.mk [("loss", a), ("top1", b), ("top5", c)])
        = Accumulator.mk
            [ ("loss", a + weightedTotal Batch.lossVal bs)
            , ("top1", b + weightedTotal Batch.top1Val bs)
            , ("top5", c + weightedTotal Batch.top5Val bs) ] := by
  induction bs with
  | nil => intro a b c; simp [weightedTotal]
  | cons bt tl ih =>
      intro a b c
      simp only [List.foldl_cons, addBatch_shape, ih, weightedTotal_cons]
      ring_nf

lemma fold_addBatch_from_empty (bt : Batch) (tl : List Batch) :
    (bt :: tl).foldl Accumulator.addBatch Accumulator.empty
      = Accumulator.mk
          [ ("loss", weightedTotal Batch.lossVal (bt :: tl))
          , ("top1", weightedTotal Batch.top1Val (bt :: tl))
          , ("top5", weightedTotal Batch.top5Val (bt :: tl)) ] := by
  simp only [List.foldl_cons, addBatch_empty, fold_addBatch_shape, weightedTotal_cons]

lemma batchStep_steps (o : Bool) (c : Option ℚ) (s : Bool) (e : ℤ) (t : ℕ)
    (st : EpochState) (b : Batch) :
    (batchStep o c s e t st b).steps = st.steps + 1 := rfl

lemma batchStep_schedArgs_true (o : Bool) (c : Option ℚ) (e : ℤ) (t : ℕ)
    (st : EpochState) (b : Batch) :
    (batchStep o c true e t st b).schedArgs
      = st.schedArgs ++ [(e : ℚ) - 1 + ((st.steps + 1 : ℕ) : ℚ) / (t : ℚ)] := by
  simp [batchStep]

lemma batchStep_clipCalls (o : Bool) (c : Option ℚ) (s : Bool) (e : ℤ) (t : ℕ)
    (st : EpochState) (b : Batch) :
    (batchStep o c s e t st b).clipCalls
      = if o && decide (0 < clipValue c) then st.clipCalls + 1 else st.clipCalls := rfl

lemma fold_batchStep_clip (o : Bool) (c : Option ℚ) (s : Bool) (e : ℤ) (t : ℕ)
    (bs : List Batch) (st : EpochState) :
    (bs.foldl (batchStep o c s e t) st).clipCalls
      = st.clipCalls + (if o && decide (0 < clipValue c) then bs.length else 0) := by
  induction bs generalizing st with
  | nil => simp
  | cons b tl ih =>
      simp only [List.foldl_cons, ih, batchStep_clipCalls, List.length_cons]
      by_cases h : o && decide (0 < clipValue c)
      · simp only [h, if_true]
        omega
      · simp [h]

lemma fold_batchStep_sched (o : Bool) (c : Option ℚ) (e : ℤ) (t : ℕ)
    (bs : List Batch) (st : EpochState) :
    (bs.foldl (batchStep o c true e t) st).schedArgs
      = st.schedArgs ++ (List.range bs.length).map
          (fun i => (e : ℚ) - 1 + ((st.steps + i + 1 : ℕ) : ℚ) / (t : ℚ)) := by
  induction bs generalizing st with
  | nil => simp
  | cons b tl ih =>
      rw [List.foldl_cons, ih, List.length_cons, List.range_succ_eq_map]
      rw [batchStep_schedArgs_true, batchStep_steps]
      simp only [List.map_cons, List.map_map, Function.comp, List.append_assoc,
        List.singleton_append]
      congr 2
      apply List.map_congr_left
      intro i _
      simp only [Function.comp_apply]
      push_cast
      ring

lemma accumulator_div_shape (a b c d : ℚ) (hd : d ≠ 0) :
    (Accumulator.mk [("loss", a), ("top1", b), ("top5", c)]).div d
      = some (Accumulator.mk [("loss", a / d), ("top1", b / d), ("top5", c / d)]) := by
  simp [Accumulator.div, hd]

lemma accumulator_set_lr_shape (a b c v : ℚ) :
    (Accumulator.mk [("loss", a), ("top1", b), ("top5", c)]).set "lr" v
      = Accumulator.mk [("loss", a), ("top1", b), ("top5", c), ("lr", v)] := by
  simp [Accumulator.set]

/-- C3: for every non-empty finite batch stream processed by `run_epoch`,
the returned loss/top1/top5 values equal the sample-weighted mean of the
per-batch values: each batch's metric is accumulated multiplied by the
batch size and the totals are divided by the cumulative sample count, so
the result is the weighted average even when batch sizes vary. -/
theorem run_epoch_weighted_average (hOpt : Bool) (clip : Option ℚ) (lr : ℚ)
    (hSch : Bool) (ep : ℤ) (bs : List Batch)
    (hne : bs ≠ []) (hsz : ∀ b ∈ bs, 0 < b.size) :
    (run_epoch hOpt clip lr hSch ep bs).avg "loss"
        = some (weightedTotal Batch.lossVal bs / (sampleCount bs : ℚ))
  ∧ (run_epoch hOpt clip lr hSch ep bs).avg "top1"
        = some (weightedTotal Batch.top1Val bs / (sampleCount bs : ℚ))
  ∧ (run_epoch hOpt clip lr hSch ep bs).avg "top5"
        = some (weightedTotal Batch.top5Val bs / (sampleCount bs : ℚ)) := by
  obtain ⟨bt, tl, rfl⟩ : ∃ bt tl, bs = bt :: tl := by
    cases bs with
    | nil => exact absurd rfl hne
    | cons a l => exact ⟨a, l, rfl⟩
  have hbt : 0 < bt.size := hsz bt (by simp)
  have hcnt : ((sampleCount (bt :: tl) : ℚ)) ≠ 0 := by
    have hpos : 0 < sampleCount (bt :: tl) := by
      simp only [sampleCount, List.map_cons, List.sum_cons]
      omega
    exact_mod_cast hpos.ne'
  simp only [run_epoch, EpochRun.avg, fold_batchStep_metrics, fold_batchStep_cnt,
    fold_addBatch_from_empty, Nat.zero_add]
  rw [accumulator_div_shape _ _ _ _ hcnt]
  cases hOpt <;>
    simp [accumulator_set_lr_shape, Accumulator.get, List.lookup]

/-- Witness for C3 at a concrete two-batch stream whose final batch is
smaller: the loss average is the weighted mean 2, not the simple batch
average 5/2. -/
theorem run_epoch_weighted_average_witness :
    (([⟨2, 1, 1, 0⟩, ⟨1, 4, 0, 0⟩] : List Batch) ≠ [])
  ∧ (∀ b ∈ ([⟨2, 1, 1, 0⟩, ⟨1, 4, 0, 0⟩] : List Batch), 0 < b.size)
  ∧ (run_epoch false none 0 false 1 [⟨2, 1, 1, 0⟩, ⟨1, 4, 0, 0⟩]).avg "loss"
      = some (weightedTotal Batch.lossVal [⟨2, 1, 1, 0⟩, ⟨1, 4, 0, 0⟩]
          / (sampleCount [⟨2, 1, 1, 0⟩, ⟨1, 4, 0, 0⟩] : ℚ)) := by
  refine ⟨by simp, by decide, ?_⟩
  exact (run_epoch_weighted_average false none 0 false 1
    [⟨2, 1, 1, 0⟩, ⟨1, 4, 0, 0⟩] (by simp) (by decide)).1

/-- C6 (amended): when a per-batch scheduler is provided, after batch
number b (1-based) of an epoch containing E batches with epoch argument
e, the scheduler is stepped with the fractional position (e - 1) + b/E
(the code passes `epoch - 1 + steps / total_steps`, line 68), not
e + b/E as the claim states. -/
theorem scheduler_fractional_epoch_steps (hOpt : Bool) (clip : Option ℚ) (lr : ℚ)
    (ep : ℤ) (bs : List Batch) :
    (run_epoch hOpt clip lr true ep bs).schedArgs
      = (List.range bs.length).map
          (fun i => (ep : ℚ) - 1 + ((i + 1 : ℕ) : ℚ) / (bs.length : ℚ)) := by
  simp only [run_epoch, fold_batchStep_sched, Nat.zero_add, List.nil_append]

/-- C6 counterexample: a run with a per-batch scheduler at epoch 1 over
two batches steps the scheduler with [1/2, 1], not with the claimed
[1 + 1/2, 1 + 2/2]. -/
theorem scheduler_fractional_epoch_steps_cex :
    (run_epoch false none 0 true 1 [⟨1, 0, 0, 0⟩, ⟨1, 0, 0, 0⟩]).schedArgs = [1/2, 1]
  ∧ (run_epoch false none 0 true 1 [⟨1, 0, 0, 0⟩, ⟨1, 0, 0, 0⟩]).schedArgs
      ≠ [(1 : ℚ) + 1/2, (1 : ℚ) + 2/2] := by
  have h : (run_epoch false none 0 true 1 [⟨1, 0, 0, 0⟩, ⟨1, 0, 0, 0⟩]).schedArgs
      = [1/2, 1] := by
    norm_num [run_epoch, batchStep, clipValue, List.foldl]
  refine ⟨h, ?_⟩
  rw [h]
  norm_num

/-- C9: in every training-mode batch (optimizer present) the gradient
norm is clipped iff the configured clip threshold is positive; a
threshold at most zero disables clipping; a missing `clip` key defaults
the threshold to 5. -/
theorem grad_clip_iff_positive (clip : Option ℚ) (lr : ℚ) (hSch : Bool) (ep : ℤ)
    (t : ℕ) (st : EpochState) (b : Batch) (bs : List Batch) :
    ((batchStep true clip hSch ep t st b).clipCalls = st.clipCalls + 1
        ↔ 0 < clipValue clip)
  ∧ ((batchStep true clip hSch ep t st b).clipCalls = st.clipCalls
        ↔ ¬ 0 < clipValue clip)
  ∧ ((run_epoch true clip lr hSch ep bs).clipCalls
        = if 0 < clipValue clip then bs.length else 0)
  ∧ clipValue none = 5 := by
  by_cases h : 0 < clipValue clip <;>
    simp [batchStep_clipCalls, run_epoch, fold_batchStep_clip, h, clipValue]

/-- C10: for an empty batch stream the cumulative sample count stays 0
and the end-of-epoch division by it fails, so `run_epoch` returns no
averaged metric mapping. -/
theorem run_epoch_empty_stream_fails (hOpt : Bool) (clip : Option ℚ) (lr : ℚ)
    (hSch : Bool) (ep : ℤ) :
    (run_epoch hOpt clip lr hSch ep []).cnt = 0
  ∧ (run_epoch hOpt clip lr hSch ep []).result = none := by
  constructor
  · rfl
  · simp [run_epoch, Accumulator.div]

lemma loopStep_schedEpochSteps (sp : Bool) (me : ℕ) (vm : ℕ → ℚ)
    (st : LoopState) (e : ℕ) :
    (loopStep sp me vm st e).schedEpochSteps = st.schedEpochSteps ++ [e] := rfl

lemma loopStep_reports (sp : Bool) (me : ℕ) (vm : ℕ → ℚ)
    (st : LoopState) (e : ℕ) :
    (loopStep sp me vm st e).reports
      = st.reports ++ [⟨e, decide ((me : ℤ) - (e : ℤ) ≤ 5)⟩] := rfl

lemma loopStep_runCalls (sp : Bool) (me : ℕ) (vm : ℕ → ℚ)
    (st : LoopState) (e : ℕ) :
    (loopStep sp me vm st e).runCalls = st.runCalls ++ epochCalls me e := rfl

lemma fold_loopStep_sched (sp : Bool) (me : ℕ) (vm : ℕ → ℚ)
    (es : List ℕ) (st : LoopState) :
    (es.foldl (loopStep sp me vm) st).schedEpochSteps
      = st.schedEpochSteps ++ es := by
  induction es generalizing st with
  | nil => simp
  | cons a tl ih =>
      simp only [List.foldl_cons, ih, loopStep_schedEpochSteps, List.append_assoc,
        List.singleton_append]

lemma fold_loopStep_reports (sp : Bool) (me : ℕ) (vm : ℕ → ℚ)
    (es : List ℕ) (st : LoopState) :
    (es.foldl (loopStep sp me vm) st).reports
      = st.reports ++ es.map (fun e => ⟨e, decide ((me : ℤ) - (e : ℤ) ≤ 5)⟩) := by
  induction es generalizing st with
  | nil => simp
  | cons a tl ih =>
      simp only [List.foldl_cons, ih, loopStep_reports, List.map_cons, List.append_assoc,
        List.singleton_append]

lemma mem_epochCalls_test (me : ℕ) (a e : ℕ) :
    (⟨.test, false, e⟩ : RunCall) ∈ epochCalls me a
      ↔ (e = a ∧ (me : ℤ) - (e : ℤ) ≤ 5) := by
  by_cases hea : e = a
  · subst hea
    by_cases h : (me : ℤ) - (e : ℤ) ≤ 5
    · simp [epochCalls, h]
    · simp [epochCalls, h]
  · by_cases h : (me : ℤ) - (a : ℤ) ≤ 5
    · simp [epochCalls, h, hea]
    · simp [epochCalls, h, hea]

lemma fold_loopStep_test_mem (sp : Bool) (me : ℕ) (vm : ℕ → ℚ)
    (es : List ℕ) (st : LoopState) (e : ℕ) :
    ((⟨.test, false, e⟩ : RunCall) ∈ (es.foldl (loopStep sp me vm) st).runCalls)
      ↔ ((⟨.test, false, e⟩ : RunCall) ∈ st.runCalls
          ∨ (e ∈ es ∧ (me : ℤ) - (e : ℤ) ≤ 5)) := by
  induction es generalizing st with
  | nil => simp
  | cons a tl ih =>
      rw [List.foldl_cons, ih, loopStep_runCalls]
      simp only [List.mem_append, mem_epochCalls_test, List.mem_cons]
      constructor
      · rintro ((h | ⟨rfl, hc⟩) | ⟨htl, hc⟩)
        · exact Or.inl h
        · exact Or.inr ⟨Or.inl rfl, hc⟩
        · exact Or.inr ⟨Or.inr htl, hc⟩
      · rintro (h | ⟨(rfl | htl), hc⟩)
        · exact Or.inl (Or.inl h)
        · exact Or.inl (Or.inr ⟨rfl, hc⟩)
        · exact Or.inr ⟨htl, hc⟩

lemma not_mem_range_succ (n : ℕ) (len : ℕ) : n ∉ List.range' (n + 1) len := by
  intro h
  rw [List.mem_range'] at h
  omega

/-- C1: in the training loop with a save path supplied, a checkpoint is
written exactly when the current epoch's validation value of the target
metric strictly exceeds the tracked best (or no prior best exists); an
equal or lower value leaves the saved checkpoint and the write log
unchanged; the tracked best value is updated exactly when a write
occurs. -/
theorem best_checkpoint_write_iff (maxEpoch : ℕ) (vm : ℕ → ℚ)
    (st : LoopState) (e : ℕ) :
    (improves st.best (vm e) = true →
        (loopStep true maxEpoch vm st e).writes = st.writes ++ [(e, vm e)]
      ∧ (loopStep true maxEpoch vm st e).saved = some (e, vm e)
      ∧ (loopStep true maxEpoch vm st e).best = some (vm e))
  ∧ (improves st.best (vm e) = false →
        (loopStep true maxEpoch vm st e).writes = st.writes
      ∧ (loopStep true maxEpoch vm st e).saved = st.saved
      ∧ (loopStep true maxEpoch vm st e).best = st.best)
  ∧ (improves st.best (vm e) = true
      ↔ st.best = none ∨ ∃ b, st.best = some b ∧ b < vm e) := by
  refine ⟨?_, ?_, ?_⟩
  · intro h
    simp [loopStep, h]
  · intro h
    simp [loopStep, h]
  · cases hb : st.best with
    | none => simp [improves]
    | some b => simp [improves]

/-- Witness for C1: from a state with no prior best, epoch 1 with
validation value 1 writes the checkpoint (1, 1). -/
theorem best_checkpoint_write_iff_witness :
    improves (LoopState.mk none none [] [] [] []).best ((fun n : ℕ => (n : ℚ)) 1) = true
  ∧ (loopStep true 3 (fun n : ℕ => (n : ℚ)) ⟨none, none, [], [], [], []⟩ 1).writes
      = [(1, 1)] := by
  refine ⟨rfl, ?_⟩
  have h := (best_checkpoint_write_iff 3 (fun n : ℕ => (n : ℚ))
    ⟨none, none, [], [], [], []⟩ 1).1 rfl
  simpa using h.1

/-- C8: loading a bare model-state-only checkpoint and loading a
metadata-wrapped checkpoint (under key `model` or `state_dict`) holding
the same state restore identical model parameters, and in every shape
each state key is normalized by prepending `module.` when that marker
does not already occur in the key. -/
theorem checkpoint_shape_equivalence (s : List (String × ℚ)) (mv : Option ℚ)
    (ho hs : Bool) (ep : Option ℕ) (items0 : List (String × ℚ)) :
    (loadCheckpoint ⟨some s, none, mv, ho, hs, ep, items0⟩).loadedModel
        = (loadCheckpoint ⟨none, none, none, false, false, none, s⟩).loadedModel
  ∧ (loadCheckpoint ⟨none, some s, mv, ho, hs, ep, items0⟩).loadedModel
        = (loadCheckpoint ⟨none, none, none, false, false, none, s⟩).loadedModel
  ∧ (loadCheckpoint ⟨none, none, none, false, false, none, s⟩).loadedModel
        = s.map (fun kv =>
            (if containsModuleStr kv.1 then kv.1 else "module." ++ kv.1, kv.2)) := by
  refine ⟨?_, ?_, ?_⟩ <;>
    simp [loadCheckpoint, normalizeStateDict, normalizeKey]

/-- C5 (amended): construction fails fast — before any epoch runs — for
any present optimizer.type other than `sgd` (and for a missing
optimizer.type key, which raises a KeyError) and for any present
lr_schedule.type outside cosine/resnet; a missing lr_schedule.type key
however does not fail: it defaults to `cosine`. -/
theorem config_error_fail_fast (cfg : Config) (sp : Bool) (ckpt : Option CkptData)
    (oe : Bool) (vm : ℕ → ℚ) :
    (∀ t, cfg.optimizerType = some t → t ≠ "sgd" →
        trainAndEval cfg sp ckpt oe vm = errorTrace (.invalidOptimizerType t))
  ∧ (cfg.optimizerType = none →
        trainAndEval cfg sp ckpt oe vm = errorTrace (.missingKey "optimizer.type"))
  ∧ (∀ t, cfg.optimizerType = some "sgd" → cfg.lrScheduleType = some t →
        t ≠ "cosine" → t ≠ "resnet" →
        trainAndEval cfg sp ckpt oe vm = errorTrace (.invalidLrScheduleType t))
  ∧ (cfg.lrScheduleType = none → buildScheduler cfg = .ok "cosine")
  ∧ (∀ err, (errorTrace err).runCalls = [] ∧ (errorTrace err).writes = []
        ∧ (errorTrace err).epochsProcessed = []) := by
  refine ⟨?_, ?_, ?_, ?_, ?_⟩
  · intro t ht hne
    simp [trainAndEval, buildOptimizer, ht, hne]
  · intro ht
    simp [trainAndEval, buildOptimizer, ht]
  · intro t hopt hlt hc hr
    simp [trainAndEval, buildOptimizer, buildScheduler, hopt, hlt, hc, hr]
  · intro ht
    simp [buildScheduler, ht]
  · intro err
    exact ⟨rfl, rfl, rfl⟩

/-- Witness for C5 at the spec's scenario: optimizer.type adam fails
with the invalid-optimizer error before any epoch runs. -/
theorem config_error_fail_fast_witness :
    trainAndEval ⟨3, some "adam", some "cosine"⟩ true none false (fun _ => 0)
      = errorTrace (.invalidOptimizerType "adam")
  ∧ (trainAndEval ⟨3, some "adam", some "cosine"⟩ true none false (fun _ => 0)).runCalls
      = [] := by
  have h := (config_error_fail_fast ⟨3, some "adam", some "cosine"⟩ true none false
    (fun _ => 0)).1 "adam" rfl (by decide)
  refine ⟨h, ?_⟩
  rw [h]
  rfl

/-- C5 counterexample: with the lr_schedule.type key missing,
construction does not fail — the scheduler type defaults to cosine, the
training loop runs its epoch, and a normal result record is returned. -/
theorem config_missing_schedule_type_no_error :
    buildScheduler ⟨1, some "sgd", none⟩ = .ok "cosine"
  ∧ (trainAndEval ⟨1, some "sgd", none⟩ false none false (fun _ => 0)).returned
      = .bestRecord (some 0)
  ∧ (trainAndEval ⟨1, some "sgd", none⟩ false none false (fun _ => 0)).epochsProcessed
      = [1] := by
  refine ⟨rfl, ?_, ?_⟩ <;>
    simp [trainAndEval, buildOptimizer, buildScheduler, trainLoop, epochRange,
      loopStep, improves, List.range']

/-- C7: with only_eval set, `train_and_eval` makes exactly one
validation pass and one test pass, both without an optimizer, writes no
checkpoint, reports nothing, advances no epoch counter, never enters the
training loop, and returns the validation metrics. -/
theorem only_eval_runs_once (cfg : Config) (sp : Bool) (ckpt : Option CkptData)
    (vm : ℕ → ℚ)
    (hopt : buildOptimizer cfg = .ok ())
    (hsch : ∃ s, buildScheduler cfg = .ok s) :
    ∃ e0 : ℕ,
      (trainAndEval cfg sp ckpt true vm).runCalls
          = [⟨.valid, false, e0⟩, ⟨.test, false, e0⟩]
      ∧ (trainAndEval cfg sp ckpt true vm).writes = []
      ∧ (trainAndEval cfg sp ckpt true vm).saved = none
      ∧ (trainAndEval cfg sp ckpt true vm).reports = []
      ∧ (trainAndEval cfg sp ckpt true vm).schedEpochSteps = []
      ∧ (trainAndEval cfg sp ckpt true vm).epochsProcessed = []
      ∧ (trainAndEval cfg sp ckpt true vm).returned = .evalValid
      ∧ (∀ c ∈ (trainAndEval cfg sp ckpt true vm).runCalls,
            c.hasOptimizer = false) := by
  obtain ⟨s, hs⟩ := hsch
  refine ⟨((if sp then ckpt.map loadCheckpoint else none).map
    LoadResult.epoch_start).getD 1, ?_, ?_, ?_, ?_, ?_, ?_, ?_, ?_⟩ <;>
    simp [trainAndEval, hopt, hs]

/-- Witness for C7 at the spec's scenario: eval-only with a pre-existing
checkpoint recording epoch 10 runs no training loop, writes nothing and
returns the validation metrics. -/
theorem only_eval_runs_once_witness :
    (trainAndEval ⟨3, some "sgd", some "resnet"⟩ true
        (some ⟨none, none, none, false, false, some 10, []⟩) true (fun _ => 0)).writes
      = []
  ∧ (trainAndEval ⟨3, some "sgd", some "resnet"⟩ true
        (some ⟨none, none, none, false, false, some 10, []⟩) true (fun _ => 0)).returned
      = .evalValid
  ∧ (trainAndEval ⟨3, some "sgd", some "resnet"⟩ true
        (some ⟨none, none, none, false, false, some 10, []⟩) true (fun _ => 0)).schedEpochSteps
      = [] := by
  obtain ⟨e0, h1, h2, h3, h4, h5, h6, h7, h8⟩ :=
    only_eval_runs_once ⟨3, some "sgd", some "resnet"⟩ true
      (some ⟨none, none, none, false, false, some 10, []⟩) (fun _ => 0)
      rfl ⟨"resnet", rfl⟩
  exact ⟨h2, h7, h5⟩

/-- C4: in every training-loop iteration a test pass is run and test
metrics are passed to the reporter iff at most 5 epochs remain
(max_epoch - current epoch at most 5); in all earlier epochs the test
metrics argument is absent. -/
theorem test_pass_iff_near_end (cfg : Config) (vm : ℕ → ℚ) (sp : Bool)
    (ckpt : Option CkptData)
    (hopt : buildOptimizer cfg = .ok ())
    (hsch : ∃ s, buildScheduler cfg = .ok s) :
    (∀ r ∈ (trainAndEval cfg sp ckpt false vm).reports,
        (r.testPresent = true ↔ (cfg.epoch : ℤ) - (r.epoch : ℤ) ≤ 5))
  ∧ (∀ e : ℕ,
      ((⟨.test, false, e⟩ : RunCall)
          ∈ (trainAndEval cfg sp ckpt false vm).runCalls)
        ↔ (e ∈ (trainAndEval cfg sp ckpt false vm).epochsProcessed
            ∧ (cfg.epoch : ℤ) - (e : ℤ) ≤ 5)) := by
  obtain ⟨s, hs⟩ := hsch
  constructor
  · intro r hr
    simp [trainAndEval, hopt, hs, trainLoop, fold_loopStep_reports] at hr
    obtain ⟨e, he, rfl⟩ := hr
    simp
  · intro e
    simp [trainAndEval, hopt, hs, trainLoop, fold_loopStep_test_mem, epochRange]

/-- Witness for C4 with max_epoch 7: epoch 3 (4 remaining) gets a test
pass, epoch 1 (6 remaining) does not. -/
theorem test_pass_iff_near_end_witness :
    ((⟨.test, false, 3⟩ : RunCall)
        ∈ (trainAndEval ⟨7, some "sgd", none⟩ false none false (fun _ => 0)).runCalls)
  ∧ ¬ ((⟨.test, false, 1⟩ : RunCall)
        ∈ (trainAndEval ⟨7, some "sgd", none⟩ false none false (fun _ => 0)).runCalls) := by
  have h := test_pass_iff_near_end ⟨7, some "sgd", none⟩ (fun _ => 0) false none
    rfl ⟨"cosine", rfl⟩
  constructor
  · exact (h.2 3).2 ⟨by decide, by decide⟩
  · intro hmem
    exact absurd ((h.2 1).1 hmem).2 (by decide)

/-- C2: when the loaded checkpoint stores epoch N, `train_and_eval`
restores state and runs the training loop over exactly the epochs
N+1 .. max_epoch, never re-running epoch N; when the checkpoint stores
no epoch, or no checkpoint file exists, the loop starts at epoch 1. -/
theorem resume_epoch_after_checkpoint (cfg : Config) (vm : ℕ → ℚ)
    (d d2 : CkptData) (N : ℕ)
    (hopt : buildOptimizer cfg = .ok ())
    (hsch : ∃ s, buildScheduler cfg = .ok s)
    (hN : d.epochValue = some N) (hN2 : d2.epochValue = none) :
    (trainAndEval cfg true (some d) false vm).epochsProcessed
        = List.range' (N + 1) (cfg.epoch - N)
  ∧ (trainAndEval cfg true (some d) false vm).schedEpochSteps
        = List.range' (N + 1) (cfg.epoch - N)
  ∧ N ∉ (trainAndEval cfg true (some d) false vm).schedEpochSteps
  ∧ (trainAndEval cfg true (some d) false vm).loadedModel
        = some (loadCheckpoint d).loadedModel
  ∧ (trainAndEval cfg true (some d2) false vm).epochsProcessed
        = List.range' 1 cfg.epoch
  ∧ (trainAndEval cfg true (some d2) false vm).schedEpochSteps
        = List.range' 1 cfg.epoch
  ∧ (trainAndEval cfg true none false vm).epochsProcessed = List.range' 1 cfg.epoch
  ∧ (trainAndEval cfg true none false vm).schedEpochSteps = List.range' 1 cfg.epoch := by
  obtain ⟨s, hs⟩ := hsch
  have hrange : cfg.epoch + 1 - (N + 1) = cfg.epoch - N := by omega
  have hes : (loadCheckpoint d).epoch_start = N + 1 := by
    simp [loadCheckpoint, hN]
  have hes2 : (loadCheckpoint d2).epoch_start = 1 := by
    simp [loadCheckpoint, hN2]
  have h2 : (trainAndEval cfg true (some d) false vm).schedEpochSteps
      = List.range' (N + 1) (cfg.epoch - N) := by
    simp [trainAndEval, hopt, hs, trainLoop, fold_loopStep_sched, hes,
      epochRange, hrange]
  refine ⟨?_, h2, ?_, ?_, ?_, ?_, ?_, ?_⟩
  · simp [trainAndEval, hopt, hs, hes, epochRange, hrange]
  · rw [h2]
    exact not_mem_range_succ N _
  · simp [trainAndEval, hopt, hs]
  · simp [trainAndEval, hopt, hs, hes2, epochRange]
  · simp [trainAndEval, hopt, hs, trainLoop, fold_loopStep_sched, hes2, epochRange]
  · simp [trainAndEval, hopt, hs, epochRange]
  · simp [trainAndEval, hopt, hs, trainLoop, fold_loopStep_sched, epochRange]

/-- Witness for C2: with max_epoch 3 and a checkpoint recording epoch 1,
the loop processes exactly epochs [2, 3] and never epoch 1. -/
theorem resume_epoch_after_checkpoint_witness :
    (trainAndEval ⟨3, some "sgd", some "cosine"⟩ true
        (some ⟨none, none, none, false, false, some 1, []⟩) false
        (fun _ => 0)).epochsProcessed = [2, 3]
  ∧ 1 ∉ (trainAndEval ⟨3, some "sgd", some "cosine"⟩ true
        (some ⟨none, none, none, false, false, some 1, []⟩) false
        (fun _ => 0)).schedEpochSteps := by
  have h := resume_epoch_after_checkpoint ⟨3, some "sgd", some "cosine"⟩ (fun _ => 0)
    ⟨none, none, none, false, false, some 1, []⟩
    ⟨none, none, none, false, false, none, []⟩ 1
    rfl ⟨"cosine", rfl⟩ rfl rfl
  refine ⟨?_, h.2.2.1⟩
  rw [h.1]
  rfl
